import Mathlib

/-!
Shallow embedding of the FitTrack fitness-tracking web application's data
model and derived-metric logic, together with proofs of the specified
properties of the dashboard aggregation, the progress-delta computation,
the workout-detail data flow and the recent-workouts rendering.

Numbers computed by the client are modelled as rationals (ideal JS number
arithmetic on the small decimal values involved); instants are modelled as
integer milliseconds, with uniform 86400000 ms days.  A `number | null`
value fetched from the store is an `Option`: `none` is JSON `null`.
-/

namespace FitTrack

/-- Milliseconds in one day, the unit of JS `Date` day arithmetic. -/
def msPerDay : ℤ := 86400000

/-- One row of the `workouts` table as fetched by the dashboard statistics
query `select("duration_minutes, date")`.  `duration_minutes` is `none` when
the stored value is SQL NULL (delivered to the client as JSON `null`);
`date` is the instant in milliseconds that `new Date(w.date)` denotes. -/
structure WorkoutStatsRow where
  duration_minutes : Option ℚ
  date : ℤ
deriving DecidableEq, Inhabited

/-- JS addition `sum + v` for `v : number | null`: `null` coerces to `0`. -/
def jsAdd (sum : ℚ) (v : Option ℚ) : ℚ := sum + v.getD 0

/-- `Math.round x`: the nearest integer, ties toward positive infinity. -/
def mathRound (x : ℚ) : ℤ := ⌊x + 1/2⌋

/-- `const totalWorkouts = allWorkouts?.length || 0` -/
def totalWorkouts (rows : List WorkoutStatsRow) : ℕ := rows.length

/-- `const totalMinutes = allWorkouts?.reduce((sum, w) => sum + w.duration_minutes, 0) || 0`.
The trailing `|| 0` maps a falsy sum back to `0`; since a `null` duration
coerces to `0` inside the addition (no `NaN` arises from fetched rows), the
only falsy value possible is `0` itself. -/
def totalMinutes (rows : List WorkoutStatsRow) : ℚ :=
  let s := rows.foldl (fun sum w => jsAdd sum w.duration_minutes) 0
  if s = 0 then 0 else s

/-- `const avgDuration = totalWorkouts > 0 ? Math.round(totalMinutes / totalWorkouts) : 0` -/
def avgDuration (rows : List WorkoutStatsRow) : ℤ :=
  if 0 < totalWorkouts rows then mathRound (totalMinutes rows / (totalWorkouts rows : ℚ))
  else 0

/-- `const oneWeekAgo = new Date(); oneWeekAgo.setDate(oneWeekAgo.getDate() - 7)`:
the instant exactly 7 days before `now`, keeping the time of day of `now`. -/
def oneWeekAgo (now : ℤ) : ℤ := now - 7 * msPerDay

/-- The number of rows whose parsed date instant is at or after `cutoff`
(the body of `allWorkouts?.filter(w => new Date(w.date) >= oneWeekAgo).length`
for an arbitrary cutoff instant). -/
def countOnOrAfter (rows : List WorkoutStatsRow) (cutoff : ℤ) : ℕ :=
  (rows.filter (fun w => decide (cutoff ≤ w.date))).length

/-- `const thisWeekWorkouts = allWorkouts?.filter(w => new Date(w.date) >= oneWeekAgo).length || 0` -/
def thisWeekWorkouts (rows : List WorkoutStatsRow) (now : ℤ) : ℕ :=
  countOnOrAfter rows (oneWeekAgo now)

/-- Midnight (00:00:00.000) of the calendar day containing the instant `t`. -/
def midnightOf (t : ℤ) : ℤ := t - t % msPerDay

/-- Offset of the instant `t` into its calendar day. -/
def timeOfDay (t : ℤ) : ℤ := t % msPerDay

theorem foldl_jsAdd (rows : List WorkoutStatsRow) (a : ℚ) :
    rows.foldl (fun sum w => jsAdd sum w.duration_minutes) a
      = a + (rows.map (fun w => w.duration_minutes.getD 0)).sum := by
  induction rows generalizing a with
  | nil => simp
  | cons r rs ih =>
    rw [List.foldl_cons, ih, List.map_cons, List.sum_cons]
    simp only [jsAdd]
    ring

/-- Claim C1: for every fetched sequence of workout rows, `totalMinutes`
equals the sum of the rows' `duration_minutes` values with an absent (null)
duration treated as 0, and `avgDuration` equals round(totalMinutes /
totalWorkouts) when totalWorkouts > 0 and 0 when the sequence is empty. -/
theorem totalMinutes_avgDuration_spec (rows : List WorkoutStatsRow) :
    totalMinutes rows = (rows.map (fun w => w.duration_minutes.getD 0)).sum
    ∧ (0 < totalWorkouts rows →
        avgDuration rows = mathRound (totalMinutes rows / (totalWorkouts rows : ℚ)))
    ∧ (rows = [] → avgDuration rows = 0) := by
  refine ⟨?_, ?_, ?_⟩
  · simp only [totalMinutes, foldl_jsAdd, zero_add]
    split
    · next h => exact h.symm
    · rfl
  · intro h
    unfold avgDuration
    rw [if_pos h]
  · intro h
    subst h
    decide

/-- Witness for C1 at the rows [{duration 30}, {duration null}]. -/
theorem totalMinutes_avgDuration_spec_witness :
    totalMinutes [⟨some 30, 0⟩, ⟨none, 0⟩] = 30
    ∧ avgDuration [⟨some 30, 0⟩, ⟨none, 0⟩] = 15 := by
  have h := totalMinutes_avgDuration_spec [⟨some 30, 0⟩, ⟨none, 0⟩]
  refine ⟨?_, ?_⟩
  · rw [h.1]
    norm_num [List.map_cons, List.sum_cons, Option.getD]
  · rw [h.2.1 (by decide), h.1]
    norm_num [List.map_cons, List.sum_cons, Option.getD, mathRound, totalWorkouts]

/-- Claim C2 is refuted here: at `now` = 01:00 on day 7, the row dated
midnight of day 0 — which is exactly 7 days before `now` at midnight — is
strictly before the cutoff `now − 7 days` (which sits at 01:00), so
`thisWeekWorkouts` does not count it, although the claim asserts it is
included. -/
theorem thisWeekWorkouts_midnight_counterexample :
    (0:ℤ) = midnightOf (7 * msPerDay + 3600000) - 7 * msPerDay
    ∧ thisWeekWorkouts [⟨some 30, 0⟩] (7 * msPerDay + 3600000) = 0 := by
  constructor
  · decide
  · decide

/-- Claim C2 (amended): `thisWeekWorkouts` counts exactly the rows whose
date instant is ≥ now − 7 days, where the time of day of `now` participates
in the cutoff instant; a row dated exactly 7 days ago at midnight satisfies
the ≥ comparison precisely when `now` itself is at midnight. -/
theorem thisWeekWorkouts_cutoff_spec (rows : List WorkoutStatsRow) (now : ℤ) :
    thisWeekWorkouts rows now = countOnOrAfter rows (now - 7 * msPerDay)
    ∧ ∀ w ∈ rows, w.date = midnightOf now - 7 * msPerDay →
        (oneWeekAgo now ≤ w.date ↔ timeOfDay now = 0) := by
  constructor
  · rfl
  · intro w _ hdate
    rw [hdate]
    unfold oneWeekAgo midnightOf timeOfDay msPerDay
    omega

/-- Witness for C2 (amended) at `now` = midnight of day 7 and a row dated
midnight of day 0: the row passes the cutoff and `now` is at midnight. -/
theorem thisWeekWorkouts_cutoff_spec_witness :
    oneWeekAgo (7 * msPerDay) ≤ (0:ℤ) ↔ timeOfDay (7 * msPerDay) = 0 :=
  (thisWeekWorkouts_cutoff_spec [⟨some 5, 0⟩] (7 * msPerDay)).2
    ⟨some 5, 0⟩ (List.mem_singleton_self _) (by decide)

/-- Claim C7: the this-week count is monotonically non-decreasing as the
cutoff window widens: for cutoff instants c1 ≤ c2, the count of rows with
date ≥ c2 is at most the count of rows with date ≥ c1 (and
`thisWeekWorkouts rows now` is `countOnOrAfter rows (oneWeekAgo now)`). -/
theorem countOnOrAfter_antitone (rows : List WorkoutStatsRow) (c1 c2 : ℤ)
    (h : c1 ≤ c2) : countOnOrAfter rows c2 ≤ countOnOrAfter rows c1 := by
  unfold countOnOrAfter
  rw [← List.countP_eq_length_filter, ← List.countP_eq_length_filter]
  exact List.countP_mono_left fun x _ hx =>
    decide_eq_true (le_trans h (of_decide_eq_true hx))

/-- Witness for C7 at a single row dated instant 5 with cutoffs 0 ≤ 10. -/
theorem countOnOrAfter_antitone_witness :
    countOnOrAfter [⟨some 1, 5⟩] 10 ≤ countOnOrAfter [⟨some 1, 5⟩] 0 :=
  countOnOrAfter_antitone [⟨some 1, 5⟩] 0 10 (by decide)

/-- One row of the `progress_metrics` table as typed by the data-access
layer: `weight` and `body_fat_percentage` are nullable numbers. -/
structure ProgressMetric where
  date : ℤ
  weight : Option ℚ
  body_fat_percentage : Option ℚ
deriving DecidableEq, Inhabited

/-- The field selector argument of `getChange`. -/
inductive MetricField
  | weight
  | body_fat_percentage
deriving DecidableEq

/-- The dynamic field access `metric[field]`. -/
def getField (m : ProgressMetric) : MetricField → Option ℚ
  | MetricField.weight => m.weight
  | MetricField.body_fat_percentage => m.body_fat_percentage

/-- JS falsiness `!v` of a `number | null` value: `null` and `0` are falsy
(`NaN` cannot arise from fetched rows). -/
def jsFalsy : Option ℚ → Bool
  | none => true
  | some q => if q = 0 then true else false

/-- `x.toFixed(1)` on ideal number arithmetic: a sign taken from `x`, then
the scaled integer nearest to `10 * |x|`, ties picking the larger, printed
with one digit after the point. -/
def toFixed1 (x : ℚ) : String :=
  (if x < 0 then "-" else "")
    ++ toString (⌊10 * |x| + 1/2⌋ / 10) ++ "." ++ toString (⌊10 * |x| + 1/2⌋ % 10)

/-- The object returned by `getChange` when it does not return null. -/
structure ChangeResult where
  value : String
  percent : String
  isPositive : Bool
deriving DecidableEq

/-- `getChange` of the progress page: compares the two most recent entries
of the chronologically ascending `metrics` and returns null when fewer than
two entries exist or either compared field value is falsy. -/
def getChange (metrics : List ProgressMetric) (field : MetricField) :
    Option ChangeResult :=
  if metrics.length < 2 then none
  else
    let latest := metrics.getD (metrics.length - 1) default
    let previous := metrics.getD (metrics.length - 2) default
    let latestValue := getField latest field
    let previousValue := getField previous field
    if jsFalsy latestValue || jsFalsy previousValue then none
    else
      let lv := latestValue.getD 0
      let pv := previousValue.getD 0
      let change := lv - pv
      some ⟨toFixed1 change, toFixed1 (change / pv * 100), decide (0 < change)⟩

theorem jsFalsy_true_iff (v : Option ℚ) :
    jsFalsy v = true ↔ (v = none ∨ v = some 0) := by
  cases v with
  | none => simp [jsFalsy]
  | some q =>
    simp only [jsFalsy]
    split
    · next h => simp [h]
    · next h => simp [h]

theorem toFixed1_of_neg (x : ℚ) (h : x < 0) :
    toFixed1 x = "-" ++ toString (⌊10 * (-x) + 1/2⌋ / 10) ++ "."
      ++ toString (⌊10 * (-x) + 1/2⌋ % 10) := by
  unfold toFixed1
  rw [if_pos h, abs_of_neg h]

/-- Claim C3: `getChange` returns null exactly when the sequence has fewer
than 2 entries, or the selected field of the latest entry is null or zero,
or the selected field of the second-latest entry is null or zero. -/
theorem getChange_eq_none_iff (metrics : List ProgressMetric) (field : MetricField) :
    getChange metrics field = none ↔
      metrics.length < 2
      ∨ (getField (metrics.getD (metrics.length - 1) default) field = none
          ∨ getField (metrics.getD (metrics.length - 1) default) field = some 0)
      ∨ (getField (metrics.getD (metrics.length - 2) default) field = none
          ∨ getField (metrics.getD (metrics.length - 2) default) field = some 0) := by
  rw [← jsFalsy_true_iff, ← jsFalsy_true_iff]
  simp only [getChange]
  by_cases hlen : metrics.length < 2
  · simp [hlen]
  rw [if_neg hlen]
  by_cases hb : (jsFalsy (getField (metrics.getD (metrics.length - 1) default) field)
      || jsFalsy (getField (metrics.getD (metrics.length - 2) default) field)) = true
  · rw [if_pos hb]
    rw [Bool.or_eq_true] at hb
    simp only [eq_self_iff_true, true_iff]
    exact Or.inr hb
  · rw [if_neg hb]
    rw [Bool.or_eq_true] at hb
    obtain ⟨hlf, hpf⟩ := not_or.mp hb
    refine iff_of_false (by simp) ?_
    rintro (h | h | h)
    · exact hlen h
    · exact hlf h
    · exact hpf h

/-- Claim C5: `getChange` depends only on the selected field of the last
two entries: two sequences of length ≥ 2 agreeing there give equal results. -/
theorem getChange_last_two (m1 m2 : List ProgressMetric) (f : MetricField)
    (h1 : 2 ≤ m1.length) (h2 : 2 ≤ m2.length)
    (hl : getField (m1.getD (m1.length - 1) default) f
        = getField (m2.getD (m2.length - 1) default) f)
    (hp : getField (m1.getD (m1.length - 2) default) f
        = getField (m2.getD (m2.length - 2) default) f) :
    getChange m1 f = getChange m2 f := by
  simp only [getChange]
  rw [hl, hp, if_neg (show ¬m1.length < 2 by omega),
    if_neg (show ¬m2.length < 2 by omega)]

/-- Witness for C5: a 2-entry and a 3-entry history agreeing on the last
two weights produce the same delta. -/
theorem getChange_last_two_witness :
    getChange [⟨0, some 100, none⟩, ⟨7, some 90, none⟩] MetricField.weight
      = getChange [⟨0, some 55, some 20⟩, ⟨3, some 100, none⟩, ⟨7, some 90, none⟩]
          MetricField.weight :=
  getChange_last_two _ _ MetricField.weight (by simp) (by simp) rfl rfl

/-- Claim C4: a non-null `getChange` result carries the change
latest − previous and the percent change (change / previous) × 100, both
formatted to one decimal place, and isPositive holds exactly for a strictly
positive change. -/
theorem getChange_components (metrics : List ProgressMetric) (f : MetricField)
    (r : ChangeResult) (h : getChange metrics f = some r) :
    ∃ lv pv : ℚ,
      getField (metrics.getD (metrics.length - 1) default) f = some lv
      ∧ getField (metrics.getD (metrics.length - 2) default) f = some pv
      ∧ r.value = toFixed1 (lv - pv)
      ∧ r.percent = toFixed1 ((lv - pv) / pv * 100)
      ∧ (r.isPositive = true ↔ 0 < lv - pv) := by
  simp only [getChange] at h
  by_cases hlen : metrics.length < 2
  · rw [if_pos hlen] at h
    exact absurd h (by simp)
  rw [if_neg hlen] at h
  by_cases hb : (jsFalsy (getField (metrics.getD (metrics.length - 1) default) f)
      || jsFalsy (getField (metrics.getD (metrics.length - 2) default) f)) = true
  · rw [if_pos hb] at h
    exact absurd h (by simp)
  rw [if_neg hb] at h
  rw [Bool.or_eq_true] at hb
  obtain ⟨hlf, hpf⟩ := not_or.mp hb
  cases hL : getField (metrics.getD (metrics.length - 1) default) f with
  | none => rw [hL] at hlf; simp [jsFalsy] at hlf
  | some lv =>
    cases hP : getField (metrics.getD (metrics.length - 2) default) f with
    | none => rw [hP] at hpf; simp [jsFalsy] at hpf
    | some pv =>
      rw [hL, hP] at h
      simp only [Option.getD_some, Option.some.injEq] at h
      subst h
      exact ⟨lv, pv, rfl, rfl, rfl, rfl, decide_eq_true_iff⟩

/-- Witness for C4 at the spec example: weights 180 then 178 give change
-2.0, percent change -1.1 and a non-positive indicator. -/
theorem getChange_components_witness :
    getChange [⟨0, some 180, none⟩, ⟨7, some 178, none⟩] MetricField.weight
        = some ⟨"-2.0", "-1.1", false⟩
    ∧ ∃ lv pv : ℚ,
        getField (([⟨0, some 180, none⟩, ⟨7, some 178, none⟩] : List ProgressMetric).getD
            (([⟨0, some 180, none⟩, ⟨7, some 178, none⟩] : List ProgressMetric).length - 1)
            default) MetricField.weight = some lv
        ∧ getField (([⟨0, some 180, none⟩, ⟨7, some 178, none⟩] : List ProgressMetric).getD
            (([⟨0, some 180, none⟩, ⟨7, some 178, none⟩] : List ProgressMetric).length - 2)
            default) MetricField.weight = some pv
        ∧ (⟨"-2.0", "-1.1", false⟩ : ChangeResult).value = toFixed1 (lv - pv)
        ∧ (⟨"-2.0", "-1.1", false⟩ : ChangeResult).percent = toFixed1 ((lv - pv) / pv * 100)
        ∧ ((⟨"-2.0", "-1.1", false⟩ : ChangeResult).isPositive = true ↔ 0 < lv - pv) := by
  have hv : toFixed1 (-2 : ℚ) = "-2.0" := by
    rw [toFixed1_of_neg _ (by norm_num)]
    norm_num
    rfl
  have hpct : toFixed1 (-((10:ℚ) / 9)) = "-1.1" := by
    rw [toFixed1_of_neg _ (by norm_num)]
    norm_num
    rfl
  have hpos : decide ((0:ℚ) < 178 - 180) = false := by
    rw [decide_eq_false_iff_not]
    norm_num
  have hEx : getChange [⟨0, some 180, none⟩, ⟨7, some 178, none⟩] MetricField.weight
      = some ⟨"-2.0", "-1.1", false⟩ := by
    simp only [getChange, List.getD, List.getElem?_cons_succ, List.getElem?_cons_zero,
      Option.getD_some, getField, jsFalsy, List.length_cons, List.length_nil]
    norm_num [hv, hpct, hpos]
  exact ⟨hEx, getChange_components _ MetricField.weight _ hEx⟩

/-- Division instrumented against a zero divisor. -/
def checkedDiv (a b : ℚ) : Option ℚ := if b = 0 then none else some (a / b)

theorem getD_ne_zero_of_not_jsFalsy (v : Option ℚ) (h : ¬jsFalsy v = true) :
    ¬v.getD 0 = 0 := by
  cases v with
  | none => simp [jsFalsy] at h
  | some q =>
    simp only [jsFalsy] at h
    simp only [Option.getD_some]
    intro h0
    rw [if_pos h0] at h
    exact h rfl

/-- `getChange` with every list access bounds-checked and the division
guarded: the outer layer is `none` exactly when an index would be out of
bounds or a division by zero would be performed. -/
def getChangeChecked (metrics : List ProgressMetric) (field : MetricField) :
    Option (Option ChangeResult) :=
  if metrics.length < 2 then some none
  else
    match metrics[metrics.length - 1]?, metrics[metrics.length - 2]? with
    | some latest, some previous =>
      let latestValue := getField latest field
      let previousValue := getField previous field
      if jsFalsy latestValue || jsFalsy previousValue then some none
      else
        let lv := latestValue.getD 0
        let pv := previousValue.getD 0
        let change := lv - pv
        match checkedDiv change pv with
        | none => none
        | some q => some (some ⟨toFixed1 change, toFixed1 (q * 100), decide (0 < change)⟩)
    | _, _ => none

/-- Claim C10: `getChange` is total and safe on every input: the
bounds-checked, division-guarded variant never reports a violation and
agrees with `getChange` everywhere. -/
theorem getChange_safe (metrics : List ProgressMetric) (field : MetricField) :
    getChangeChecked metrics field = some (getChange metrics field) := by
  simp only [getChange, getChangeChecked]
  by_cases hlen : metrics.length < 2
  · rw [if_pos hlen, if_pos hlen]
  rw [if_neg hlen, if_neg hlen]
  have hlt1 : metrics.length - 1 < metrics.length := by omega
  have hlt2 : metrics.length - 2 < metrics.length := by omega
  rw [List.getD_eq_getElem?_getD, List.getD_eq_getElem?_getD,
    List.getElem?_eq_getElem hlt1, List.getElem?_eq_getElem hlt2]
  simp only [Option.getD_some]
  by_cases hb : (jsFalsy (getField metrics[metrics.length - 1] field)
      || jsFalsy (getField metrics[metrics.length - 2] field)) = true
  · rw [if_pos hb, if_pos hb]
  rw [if_neg hb, if_neg hb]
  rw [Bool.or_eq_true] at hb
  obtain ⟨hlf, hpf⟩ := not_or.mp hb
  have hpv := getD_ne_zero_of_not_jsFalsy _ hpf
  rw [checkedDiv, if_neg hpv]

/-- One row of the `workout_exercises` table. -/
structure WorkoutExerciseRow where
  id : String
  workout_id : String
  exercise_id : String
  sets : ℕ
  reps : ℕ
  weight : ℚ
  duration_seconds : ℕ
  order_index : ℕ
deriving DecidableEq, Inhabited

/-- The workout-detail fetch of exercises:
`.eq("workout_id", workoutId).order("order_index")`. -/
def fetchWorkoutExercises (db : List WorkoutExerciseRow) (workoutId : String) :
    List WorkoutExerciseRow :=
  (db.filter (fun r => r.workout_id == workoutId)).mergeSort
    (fun a b => decide (a.order_index ≤ b.order_index))

/-- The values of the `workout_exercises` row inserted by
`handleAddExercise` (the id is generated by the store). -/
structure NewWorkoutExercise where
  workout_id : String
  exercise_id : String
  sets : ℕ
  reps : ℕ
  weight : ℚ
  order_index : ℕ
deriving DecidableEq

/-- The insert payload of `handleAddExercise`: `order_index` is the current
length of the displayed `workoutExercises` list. -/
def handleAddExerciseRow (workoutId : String) (exerciseId : String)
    (sets reps : ℕ) (weight : ℚ) (workoutExercises : List WorkoutExerciseRow) :
    NewWorkoutExercise :=
  ⟨workoutId, exerciseId, sets, reps, weight, workoutExercises.length⟩

/-- Claim C6: the order_index sent in the inserted workout_exercise row
equals the number of workout_exercise rows of that workout read by the
fetch preceding the insert. -/
theorem handleAddExercise_order_index (db : List WorkoutExerciseRow)
    (workoutId exerciseId : String) (sets reps : ℕ) (weight : ℚ) :
    (handleAddExerciseRow workoutId exerciseId sets reps weight
        (fetchWorkoutExercises db workoutId)).order_index
      = (db.filter (fun r => r.workout_id == workoutId)).length := by
  unfold handleAddExerciseRow fetchWorkoutExercises
  exact List.length_mergeSort _

/-- One row of the `workouts` table. -/
structure Workout where
  id : String
  user_id : Option String
  name : String
  date : ℤ
  duration_minutes : ℚ
  notes : Option String
deriving DecidableEq, Inhabited

/-- The error text the store reports when a single-row request matches
several rows. -/
def multipleRowsMessage : String := "JSON object requested, multiple rows returned"

/-- `.maybeSingle()`: zero matching rows give a null result without an
error; exactly one row gives that row; several rows are an error. -/
def maybeSingle {α : Type} : List α → Except String (Option α)
  | [] => Except.ok none
  | [a] => Except.ok (some a)
  | _ => Except.error multipleRowsMessage

/-- The workout-detail page state produced by one run of `loadWorkoutData`
(after `setLoading(false)`): the workout (null when absent), the fetched
exercise list, and whether the catch branch showed an error toast. -/
structure WorkoutDetailState where
  workout : Option Workout
  workoutExercises : List WorkoutExerciseRow
  toastedError : Bool
deriving DecidableEq

/-- `loadWorkoutData`: fetches the workout by id with `.maybeSingle()` and
its exercises; a thrown store error is caught and toasts a failure, while
an absent row simply stores null. -/
def loadWorkoutData (workouts : List Workout) (exercisesDb : List WorkoutExerciseRow)
    (workoutId : String) : WorkoutDetailState :=
  match maybeSingle (workouts.filter (fun w => w.id == workoutId)) with
  | Except.error _ => ⟨none, [], true⟩
  | Except.ok workoutData =>
      ⟨workoutData, fetchWorkoutExercises exercisesDb workoutId, false⟩

/-- The three mutually exclusive bodies the workout-detail page renders. -/
inductive WorkoutDetailView
  | loadingView
  | notFound
  | detail
deriving DecidableEq

/-- The page body: the loading guard, then the not-found guard on a null
workout, then the detail view. -/
def renderWorkoutDetail (loading : Bool) (workout : Option Workout) :
    WorkoutDetailView :=
  if loading then WorkoutDetailView.loadingView
  else
    match workout with
    | none => WorkoutDetailView.notFound
    | some _ => WorkoutDetailView.detail

/-- Claim C8: when the single-workout fetch matches no row, the load
stores a null workout without toasting an error, and the page renders the
explicit not-found state. -/
theorem workout_notFound_state (workouts : List Workout)
    (exercisesDb : List WorkoutExerciseRow) (workoutId : String)
    (habsent : workouts.filter (fun w => w.id == workoutId) = []) :
    (loadWorkoutData workouts exercisesDb workoutId).toastedError = false
    ∧ (loadWorkoutData workouts exercisesDb workoutId).workout = none
    ∧ renderWorkoutDetail false (loadWorkoutData workouts exercisesDb workoutId).workout
        = WorkoutDetailView.notFound := by
  unfold loadWorkoutData
  rw [habsent]
  exact ⟨rfl, rfl, rfl⟩

/-- Witness for C8 on an empty workouts table. -/
theorem workout_notFound_state_witness :
    (loadWorkoutData [] [] "w1").toastedError = false
    ∧ (loadWorkoutData [] [] "w1").workout = none
    ∧ renderWorkoutDetail false (loadWorkoutData [] [] "w1").workout
        = WorkoutDetailView.notFound :=
  workout_notFound_state [] [] "w1" rfl

/-- The props the dashboard passes to one recent-workout card. -/
structure WorkoutCardProps where
  name : String
  date : ℤ
  duration : ℚ
  exerciseCount : ℕ
deriving DecidableEq

/-- The Recent Workouts card list of the dashboard: every card receives
the literal `exerciseCount={0}`. -/
def recentWorkoutCards (workouts : List Workout) : List WorkoutCardProps :=
  workouts.map (fun w => ⟨w.name, w.date, w.duration_minutes, 0⟩)

/-- `getExerciseCount` of the dashboard: fetches the workout_exercises
rows of the workout and returns `data?.length || 0`. -/
def getExerciseCount (db : List WorkoutExerciseRow) (workoutId : String) : ℕ :=
  (db.filter (fun r => r.workout_id == workoutId)).length

/-- Claim C9: the exercise count rendered on every recent-workout card is
the constant 0, whatever the workout_exercises table `db` contains (the
`getExerciseCount` helper is never consulted). -/
theorem recentWorkoutCards_exerciseCount_zero (workouts : List Workout)
    (_db : List WorkoutExerciseRow) :
    ((recentWorkoutCards workouts).map (fun c => c.exerciseCount))
      = List.replicate workouts.length 0 := by
  induction workouts with
  | nil => rfl
  | cons w ws ih =>
    simp only [recentWorkoutCards, List.map_cons, List.length_cons,
      List.replicate] at ih ⊢
    rw [ih]

end FitTrack
